import Mathlib

/-!
Shallow embedding of `src/service/main.rs` of the ic-whale-transfer canister:
the watch lifecycle state, the poll callback, the nonce-cached mint call, and
the query endpoints, together with theorems settling the specification claims.
-/

namespace WhaleTransfer

/-- Poll limit constant, main.rs line 19. -/
def POLL_LIMIT : Nat := 3

/-- Timer handles (the `ic_cdk_timers::TimerId` values) are opaque; modelled as `Nat`. -/
abbrev TimerId := Nat

/-- Canister watch state, main.rs lines 25-29: the stored timer handle, the display
log records and the poll counter. -/
structure State where
  timer_id : Option TimerId
  logs : List String
  poll_count : Nat
deriving DecidableEq

/-- Default state, main.rs lines 31-45. -/
def State.default : State := { timer_id := none, logs := [], poll_count := 0 }

/-- Confirmed transaction as returned by `get_transaction_by_hash`: the nonce it
consumed and its debug rendering (the string the mint call returns on success). -/
structure Tx where
  nonce : Nat
  descr : String
deriving DecidableEq

/-- Chain responses consumed by one `mint_new_whale_nft` call. `txCount` is the
`get_transaction_count` reply, `none` modelling a failed query (which line 92
defaults to 0 via `unwrap_or(0)`); `sendError` is `some e` when `send()` is
rejected with debug rendering `e`, `none` when the submission is accepted; and
`lookup` is the `get_transaction_by_hash` reply for the submitted transaction's
hash (the transport itself succeeding, as the `unwrap` on line 111 assumes). -/
structure MintEnv where
  txCount : Option Nat
  sendError : Option String
  lookup : Option Tx
deriving DecidableEq

/-- Equality of `Except` results is decidable once both components' is. -/
instance exceptDecEq {e a : Type} [DecidableEq e] [DecidableEq a] :
    DecidableEq (Except e a) := fun x y =>
  match x, y with
  | Except.ok x, Except.ok y =>
    if h : x = y then isTrue (by rw [h]) else isFalse (by simp [h])
  | Except.error x, Except.error y =>
    if h : x = y then isTrue (by rw [h]) else isFalse (by simp [h])
  | Except.ok _, Except.error _ => isFalse (by simp)
  | Except.error _, Except.ok _ => isFalse (by simp)

/-- Observable outcome of one `mint_new_whale_nft` call: the returned result, the
target handed to `newWhale`, the nonce stamped on the submitted call, and the
`NONCE` cache afterwards. -/
structure MintOutcome where
  result : Except String String
  target : String
  submitted : Nat
  nonceAfter : Option Nat
deriving DecidableEq

/-- Mint call, main.rs lines 67-129, run against chain responses `env` with the
`NONCE` thread-local (line 22) holding `nonceCache`. Unsigned 64-bit nonces are
modelled as `Nat`; the claims and all realistic nonces stay far below the wrap
point of `nonce + 1`. -/
def mint_new_whale_nft (env : MintEnv) (target_address : String)
    (nonceCache : Option Nat) : MintOutcome :=
  let maybe_nonce := nonceCache.map (fun nonce => nonce + 1)
  let nonce :=
    match maybe_nonce with
    | some nonce => nonce
    | none => env.txCount.getD 0
  match env.sendError with
  | none =>
    match env.lookup with
    | some tx =>
      { result := Except.ok tx.descr, target := target_address, submitted := nonce,
        nonceAfter := some tx.nonce }
    | none =>
      { result := Except.error "Could not get transaction.", target := target_address,
        submitted := nonce, nonceAfter := nonceCache }
  | some e =>
    { result := Except.error e, target := target_address, submitted := nonce,
      nonceAfter := nonceCache }

/-- Next nonce the cache would hand out, main.rs lines 83-86: the cached nonce
plus one when present. The specification calls this view `peek_next`. -/
def peek_next (nonceCache : Option Nat) : Option Nat :=
  nonceCache.map (fun nonce => nonce + 1)

/-- Chain responses used when a firing issues more mint calls than the supplied
response list covers: every interaction fails. -/
def MintEnv.fallback : MintEnv :=
  { txCount := none, sendError := some "IcpError", lookup := none }

/-- Decoded `USDC::Transfer` event: sender and recipient as their `to_string()`
hex renderings (ASCII strings), and the transferred value (`U256`, modelled as
`Nat`; no arithmetic is performed on it). -/
structure TransferEvent where
  fromAddr : String
  toAddr : String
  value : Nat
deriving DecidableEq

/-- Raw log entry of a batch; `decoded` holds the outcome of `log.log_decode()`,
with `none` modelling a decode failure (which line 152 `.unwrap()`s into a
panic). -/
structure RawLog where
  decoded : Option TransferEvent
deriving DecidableEq

/-- Short address form built at main.rs lines 156-165: the characters at byte
positions 2 to 4 of the `to_string()` rendering and its last 3 bytes, around an
ellipsis. Addresses are ASCII, so Rust byte slicing coincides with character
indexing. -/
def short_address (a : String) : String :=
  "0x" ++ (a.drop 2).take 3 ++ "..." ++ a.drop (a.length - 3)

/-- Display record pushed at main.rs line 168. The debug rendering of the `U256`
value is modelled as its decimal numeral. -/
def transfer_record (ev : TransferEvent) : String :=
  short_address ev.fromAddr ++ " -> " ++ short_address ev.toAddr ++
    ", value: " ++ toString ev.value

/-- Escape of one character under Rust Debug formatting of a string, restricted
to the cases ASCII content can hit: quote, backslash, newline, carriage return
and tab become two-character escapes, other control characters a unicode escape,
and everything else stays. -/
def rust_escape_char (c : Char) : List Char :=
  if c = '\"' then ['\\', '\"']
  else if c = '\\' then ['\\', '\\']
  else if c = '\n' then ['\\', 'n']
  else if c = '\r' then ['\\', 'r']
  else if c = '\t' then ['\\', 't']
  else if c.toNat < 32 then '\\' :: 'u' :: '\x7b' :: (Nat.toDigits 16 c.toNat ++ ['\x7d'])
  else [c]

/-- Rendering a stored record through Rust Debug formatting, as applied at
main.rs line 245: the record's characters escaped, wrapped in double quotes. -/
def rust_string_debug (s : String) : String :=
  "\"" ++ String.mk (s.data.foldr (fun c acc => rust_escape_char c ++ acc) []) ++ "\""

/-- Whole modelled system: the canister thread-locals `STATE` and `NONCE`, plus
the observable state of the external collaborators — the scheduler timer backing
the active poller together with the number of callbacks that poller has already
fired (it fires at most its configured limit, here `POLL_LIMIT` by line 201),
the timer ids handed to `ic_cdk_timers::clear_timer`, the mint targets issued so
far, and a fresh-id counter for new timers. -/
structure Sys where
  state : State
  nonce : Option Nat
  schedTimer : Option TimerId
  schedFires : Nat
  cancelled : List TimerId
  mints : List String
  nextTimerId : TimerId
deriving DecidableEq

/-- Initial system: default canister state, empty nonce cache, no poller. -/
def Sys.init : Sys :=
  { state := State.default, nonce := none, schedTimer := none, schedFires := 0,
    cancelled := [], mints := [], nextTimerId := 0 }

/-- Start endpoint, main.rs lines 134-212: error while a timer id is stored;
otherwise clear the logs and poll counter, start the poller (modelled as a fresh
scheduler timer with a zeroed fire count), store its timer id and report the
configured limit. -/
def watch_usdc_transfer_start (sys : Sys) : Except String String × Sys :=
  if sys.state.timer_id.isSome then
    (Except.error "Already watching for logs.", sys)
  else
    let timer_id := sys.nextTimerId
    (Except.ok ("Watching for logs, polling " ++ toString POLL_LIMIT ++ " times."),
     { sys with
        state := { timer_id := some timer_id, logs := [], poll_count := 0 },
        schedTimer := some timer_id,
        schedFires := 0,
        nextTimerId := timer_id + 1 })

/-- Stop endpoint, main.rs lines 215-227: take the stored timer id and hand it
to `ic_cdk_timers::clear_timer` — cancelling the scheduler timer — or error when
none is stored. -/
def watch_usdc_transfer_stop (sys : Sys) : Except String String × Sys :=
  match sys.state.timer_id with
  | some timer_id =>
    (Except.ok "Watching for logs stopped.",
     { sys with
        state := { sys.state with timer_id := none },
        schedTimer := if sys.schedTimer = some timer_id then none else sys.schedTimer,
        cancelled := sys.cancelled ++ [timer_id] })
  | none => (Except.error "No timer to clear.", sys)

/-- Polling status query, main.rs lines 230-233. -/
def watch_usdc_transfer_is_polling (sys : Sys) : Bool :=
  sys.state.timer_id.isSome

/-- Poll counter query, main.rs lines 237-240. -/
def watch_usdc_transfer_poll_count (sys : Sys) : Nat :=
  sys.state.poll_count

/-- Log query, main.rs lines 243-246: each stored record passes through Rust
Debug formatting before being returned. -/
def watch_usdc_transfer_get (sys : Sys) : List String :=
  sys.state.logs.map rust_string_debug

/-- Body of the poll callback's loop, main.rs lines 151-173, folded over the
batch: decode each entry (`none` when the `unwrap` would panic), and for values
strictly above the threshold append the display record and mint an NFT to the
sender. `envs` lists the chain responses consumed by the successive mint calls,
indexed by `k`. Yields the updated logs, nonce cache and issued mint targets. -/
def process_logs (envs : List MintEnv) :
    List RawLog → Nat → List String → Option Nat → List String →
    Option (List String × Option Nat × List String)
  | [], _, logs, nonce, mints => some (logs, nonce, mints)
  | log :: rest, k, logs, nonce, mints =>
    match log.decoded with
    | none => none
    | some ev =>
      if ev.value > 1000000 then
        let m := mint_new_whale_nft (envs.getD k MintEnv.fallback) ev.fromAddr nonce
        process_logs envs rest (k + 1) (logs ++ [transfer_record ev]) m.nonceAfter
          (mints ++ [ev.fromAddr])
      else
        process_logs envs rest k logs nonce mints

/-- Loop of the poll callback again, with the canister commit model explicit:
the same per-entry work as `process_logs`, but on a decode failure the
accumulated logs, nonce cache and issued mints are returned with a `false` flag
instead of being discarded. Each qualifying entry's record push is followed by
that entry's mint await — an inter-canister commit point — so when the unwrap on
a later entry panics, those pushes, the nonce updates and the externally issued
mint calls are already committed; entries after the failing one are never
reached. -/
def process_logs_run (envs : List MintEnv) :
    List RawLog → Nat → List String → Option Nat → List String →
    (List String × Option Nat × List String) × Bool
  | [], _, logs, nonce, mints => ((logs, nonce, mints), true)
  | log :: rest, k, logs, nonce, mints =>
    match log.decoded with
    | none => ((logs, nonce, mints), false)
    | some ev =>
      if ev.value > 1000000 then
        let m := mint_new_whale_nft (envs.getD k MintEnv.fallback) ev.fromAddr nonce
        process_logs_run envs rest (k + 1) (logs ++ [transfer_record ev]) m.nonceAfter
          (mints ++ [ev.fromAddr])
      else
        process_logs_run envs rest k logs nonce mints

/-- One scheduler tick, main.rs lines 149-180. The external poller invokes the
callback only while its scheduler timer is alive and it has fired fewer times
than its configured limit. A completed callback carries its records, nonce and
mints into the state, increments the poll counter, and drops the stored timer id
once the counter reaches the limit, counting one more delivered fire. A callback
that traps on a decode failure keeps only the effects already committed at its
mint awaits — the records, nonce updates and issued mints of the entries
processed before the failure — while the poll-counter increment and the
auto-termination check are never reached, and the poller's own fire count,
mutated in the same trapped execution, rolls back with it. -/
def fire_step (envs : List MintEnv) (incoming : List RawLog) (sys : Sys) : Sys :=
  if sys.schedTimer.isSome = true ∧ sys.schedFires < POLL_LIMIT then
    match process_logs_run envs incoming 0 sys.state.logs sys.nonce [] with
    | ((logs, nonce, mints), true) =>
      let poll_count := sys.state.poll_count + 1
      { sys with
          state := { timer_id := if poll_count ≥ POLL_LIMIT then none else sys.state.timer_id, logs := logs, poll_count := poll_count }
          nonce := nonce
          schedFires := sys.schedFires + 1
          mints := sys.mints ++ mints }
    | ((logs, nonce, mints), false) =>
      { sys with
          state := { sys.state with logs := logs }
          nonce := nonce
          mints := sys.mints ++ mints }
  else sys

/-- External stimuli: the two update endpoints and a scheduler tick carrying a
batch of raw logs together with the chain responses its mint calls consume. -/
inductive Cmd where
  | start
  | stop
  | fire (envs : List MintEnv) (incoming : List RawLog)

/-- Apply one stimulus to the system. -/
def step (sys : Sys) : Cmd → Sys
  | Cmd.start => (watch_usdc_transfer_start sys).2
  | Cmd.stop => (watch_usdc_transfer_stop sys).2
  | Cmd.fire envs incoming => fire_step envs incoming sys

/-- Run a sequence of stimuli. -/
def run (sys : Sys) : List Cmd → Sys
  | [] => sys
  | c :: cs => run (step sys c) cs

/-- C3: the nonce stamped on the submitted mint transaction is the cached nonce
plus one when a cache is present, the chain's transaction count for the signer
when the cache is empty, and 0 when the cache is empty and that query fails. -/
theorem C3_nonce_choice (env : MintEnv) (target : String) :
    (∀ n, (mint_new_whale_nft env target (some n)).submitted = n + 1) ∧
    (∀ c, env.txCount = some c → (mint_new_whale_nft env target none).submitted = c) ∧
    (env.txCount = none → (mint_new_whale_nft env target none).submitted = 0) := by
  obtain ⟨tc, se, lk⟩ := env
  refine ⟨fun n => ?_, fun c hc => ?_, fun hc => ?_⟩ <;>
    cases hc' : se <;> cases hl : lk <;>
    simp_all [mint_new_whale_nft]

/-- Witness for C3 at concrete inputs: all three nonce sources observed. -/
theorem C3_nonce_choice_witness :
    (mint_new_whale_nft ⟨some 9, none, some ⟨5, "tx"⟩⟩ "0xT" (some 4)).submitted = 5 ∧
    (mint_new_whale_nft ⟨some 9, none, some ⟨5, "tx"⟩⟩ "0xT" none).submitted = 9 ∧
    (mint_new_whale_nft ⟨none, none, some ⟨5, "tx"⟩⟩ "0xT" none).submitted = 0 :=
  ⟨(C3_nonce_choice ⟨some 9, none, some ⟨5, "tx"⟩⟩ "0xT").1 4,
   (C3_nonce_choice ⟨some 9, none, some ⟨5, "tx"⟩⟩ "0xT").2.1 9 rfl,
   (C3_nonce_choice ⟨none, none, some ⟨5, "tx"⟩⟩ "0xT").2.2 rfl⟩

/-- C4: a successful mint stores the looked-up transaction's confirmed nonce in
the cache; after two sequential successful mints confirming nonces 5 then 6 the
next nonce handed out is 7; and when the first confirmation equals the nonce the
first mint submitted, the second mint submits that nonce plus one, so the same
nonce is never issued twice across the two consecutive successful mints. -/
theorem C4_nonce_advance :
    (∀ env target cache tx, env.sendError = none → env.lookup = some tx →
      (mint_new_whale_nft env target cache).nonceAfter = some tx.nonce) ∧
    (∀ env1 env2 t1 t2 cache tx1 tx2,
      env1.sendError = none → env1.lookup = some tx1 → tx1.nonce = 5 →
      env2.sendError = none → env2.lookup = some tx2 → tx2.nonce = 6 →
      peek_next (mint_new_whale_nft env2 t2
        (mint_new_whale_nft env1 t1 cache).nonceAfter).nonceAfter = some 7) ∧
    (∀ env1 env2 t1 t2 cache tx1,
      env1.sendError = none → env1.lookup = some tx1 →
      tx1.nonce = (mint_new_whale_nft env1 t1 cache).submitted →
      (mint_new_whale_nft env2 t2 (mint_new_whale_nft env1 t1 cache).nonceAfter).submitted
        = (mint_new_whale_nft env1 t1 cache).submitted + 1) := by
  refine ⟨fun env target cache tx hs hl => ?_,
          fun env1 env2 t1 t2 cache tx1 tx2 hs1 hl1 hn1 hs2 hl2 hn2 => ?_,
          fun env1 env2 t1 t2 cache tx1 hs1 hl1 hn1 => ?_⟩
  · simp [mint_new_whale_nft, hs, hl]
  · simp [mint_new_whale_nft, peek_next, hs1, hl1, hn1, hs2, hl2, hn2]
  · have h2 : (mint_new_whale_nft env2 t2
        (mint_new_whale_nft env1 t1 cache).nonceAfter).submitted = tx1.nonce + 1 := by
      cases hs2 : env2.sendError <;> cases hl2 : env2.lookup <;>
        simp [mint_new_whale_nft, hs1, hl1, hs2, hl2]
    rw [h2, hn1]

/-- Witness for C4 at concrete inputs: confirmed nonces 5 then 6 give next nonce
7, and the cache after a success is the confirmed nonce. -/
theorem C4_nonce_advance_witness :
    (mint_new_whale_nft ⟨some 5, none, some ⟨5, "tx5"⟩⟩ "0xT" none).nonceAfter = some 5 ∧
    peek_next (mint_new_whale_nft ⟨none, none, some ⟨6, "tx6"⟩⟩ "0xU"
      (mint_new_whale_nft ⟨some 5, none, some ⟨5, "tx5"⟩⟩ "0xT" none).nonceAfter).nonceAfter
      = some 7 ∧
    (mint_new_whale_nft ⟨none, none, some ⟨6, "tx6"⟩⟩ "0xU"
      (mint_new_whale_nft ⟨some 5, none, some ⟨5, "tx5"⟩⟩ "0xT" none).nonceAfter).submitted
      = (mint_new_whale_nft ⟨some 5, none, some ⟨5, "tx5"⟩⟩ "0xT" none).submitted + 1 :=
  ⟨C4_nonce_advance.1 ⟨some 5, none, some ⟨5, "tx5"⟩⟩ "0xT" none ⟨5, "tx5"⟩ rfl rfl,
   C4_nonce_advance.2.1 ⟨some 5, none, some ⟨5, "tx5"⟩⟩ ⟨none, none, some ⟨6, "tx6"⟩⟩
     "0xT" "0xU" none ⟨5, "tx5"⟩ ⟨6, "tx6"⟩ rfl rfl rfl rfl rfl rfl,
   C4_nonce_advance.2.2 ⟨some 5, none, some ⟨5, "tx5"⟩⟩ ⟨none, none, some ⟨6, "tx6"⟩⟩
     "0xT" "0xU" none ⟨5, "tx5"⟩ rfl rfl (by decide)⟩

/-- C5: every failing mint call — the submission rejected or the post-submission
lookup empty — leaves the nonce cache exactly as it was before the attempt. -/
theorem C5_failed_mint_frame (env : MintEnv) (target : String) (cache : Option Nat)
    (e : String) (h : (mint_new_whale_nft env target cache).result = Except.error e) :
    (mint_new_whale_nft env target cache).nonceAfter = cache := by
  obtain ⟨tc, se, lk⟩ := env
  cases hs : se <;> cases hl : lk <;> simp_all [mint_new_whale_nft]

/-- Witness for C5 at concrete inputs: a rejected submission and an empty lookup
both leave the cache at its pre-attempt value. -/
theorem C5_failed_mint_frame_witness :
    (mint_new_whale_nft ⟨some 9, some "send refused", some ⟨5, "tx"⟩⟩ "0xT" (some 4)).nonceAfter
      = some 4 ∧
    (mint_new_whale_nft ⟨some 9, none, none⟩ "0xT" (some 4)).nonceAfter = some 4 :=
  ⟨C5_failed_mint_frame ⟨some 9, some "send refused", some ⟨5, "tx"⟩⟩ "0xT" (some 4)
     "send refused" (by decide),
   C5_failed_mint_frame ⟨some 9, none, none⟩ "0xT" (some 4)
     "Could not get transaction." (by decide)⟩

/-- C1: a start while a timer id is stored fails with the AlreadyWatching error
and changes nothing; a stop with no stored timer fails with the NoActiveWatch
error and changes nothing; after a successful start, is_polling is true; after a
successful stop, is_polling is false, and a second consecutive stop yields the
error rather than a crash. -/
theorem C1_lifecycle (sys : Sys) :
    (sys.state.timer_id.isSome = true →
      watch_usdc_transfer_start sys = (Except.error "Already watching for logs.", sys)) ∧
    (sys.state.timer_id = none →
      watch_usdc_transfer_stop sys = (Except.error "No timer to clear.", sys)) ∧
    (∀ m, (watch_usdc_transfer_start sys).1 = Except.ok m →
      watch_usdc_transfer_is_polling (watch_usdc_transfer_start sys).2 = true) ∧
    (∀ m, (watch_usdc_transfer_stop sys).1 = Except.ok m →
      watch_usdc_transfer_is_polling (watch_usdc_transfer_stop sys).2 = false) ∧
    (∀ m, (watch_usdc_transfer_stop sys).1 = Except.ok m →
      (watch_usdc_transfer_stop (watch_usdc_transfer_stop sys).2).1 =
        Except.error "No timer to clear.") := by
  refine ⟨fun h => ?_, fun h => ?_, fun m hm => ?_, fun m hm => ?_, fun m hm => ?_⟩
  · simp [watch_usdc_transfer_start, h]
  · simp [watch_usdc_transfer_stop, h]
  · by_cases h : sys.state.timer_id.isSome <;>
      simp_all [watch_usdc_transfer_start, watch_usdc_transfer_is_polling]
  · cases h : sys.state.timer_id <;>
      simp_all [watch_usdc_transfer_stop, watch_usdc_transfer_is_polling]
  · cases h : sys.state.timer_id <;> simp_all [watch_usdc_transfer_stop]

/-- Witness for C1: starting from the idle initial system, stop errors, a start
turns polling on, a second start errors and changes nothing, and a stop turns
polling off again with a further stop erroring. -/
theorem C1_lifecycle_witness :
    watch_usdc_transfer_stop Sys.init = (Except.error "No timer to clear.", Sys.init) ∧
    watch_usdc_transfer_is_polling (watch_usdc_transfer_start Sys.init).2 = true ∧
    watch_usdc_transfer_start (watch_usdc_transfer_start Sys.init).2 =
      (Except.error "Already watching for logs.", (watch_usdc_transfer_start Sys.init).2) ∧
    watch_usdc_transfer_is_polling
      (watch_usdc_transfer_stop (watch_usdc_transfer_start Sys.init).2).2 = false ∧
    (watch_usdc_transfer_stop
      (watch_usdc_transfer_stop (watch_usdc_transfer_start Sys.init).2).2).1 =
      Except.error "No timer to clear." :=
  ⟨(C1_lifecycle Sys.init).2.1 rfl,
   (C1_lifecycle Sys.init).2.2.1 "Watching for logs, polling 3 times." rfl,
   (C1_lifecycle (watch_usdc_transfer_start Sys.init).2).1 rfl,
   (C1_lifecycle (watch_usdc_transfer_start Sys.init).2).2.2.2.1
     "Watching for logs stopped." rfl,
   (C1_lifecycle (watch_usdc_transfer_start Sys.init).2).2.2.2.2
     "Watching for logs stopped." rfl⟩

/-- C9: a start that fails with the AlreadyWatching error leaves the whole
system — in particular poll count, logs and the stored timer — exactly as it
was, while a start that passes the check clears the logs and resets the poll
count to 0. -/
theorem C9_failed_start_frame (sys : Sys) :
    (sys.state.timer_id.isSome = true →
      (watch_usdc_transfer_start sys).1 = Except.error "Already watching for logs." ∧
      (watch_usdc_transfer_start sys).2 = sys ∧
      (watch_usdc_transfer_start sys).2.state.poll_count = sys.state.poll_count ∧
      (watch_usdc_transfer_start sys).2.state.logs = sys.state.logs ∧
      (watch_usdc_transfer_start sys).2.state.timer_id = sys.state.timer_id) ∧
    (sys.state.timer_id = none →
      (watch_usdc_transfer_start sys).2.state.logs = [] ∧
      (watch_usdc_transfer_start sys).2.state.poll_count = 0) := by
  constructor
  · intro h
    simp [watch_usdc_transfer_start, h]
  · intro h
    simp [watch_usdc_transfer_start, h]

/-- Witness for C9: a second start after a successful one changes nothing, and a
start from the initial system clears logs and count. -/
theorem C9_failed_start_frame_witness :
    ((watch_usdc_transfer_start (watch_usdc_transfer_start Sys.init).2).1 =
       Except.error "Already watching for logs." ∧
     (watch_usdc_transfer_start (watch_usdc_transfer_start Sys.init).2).2 =
       (watch_usdc_transfer_start Sys.init).2 ∧
     (watch_usdc_transfer_start (watch_usdc_transfer_start Sys.init).2).2.state.poll_count =
       (watch_usdc_transfer_start Sys.init).2.state.poll_count ∧
     (watch_usdc_transfer_start (watch_usdc_transfer_start Sys.init).2).2.state.logs =
       (watch_usdc_transfer_start Sys.init).2.state.logs ∧
     (watch_usdc_transfer_start (watch_usdc_transfer_start Sys.init).2).2.state.timer_id =
       (watch_usdc_transfer_start Sys.init).2.state.timer_id) ∧
    ((watch_usdc_transfer_start Sys.init).2.state.logs = [] ∧
     (watch_usdc_transfer_start Sys.init).2.state.poll_count = 0) :=
  ⟨(C9_failed_start_frame (watch_usdc_transfer_start Sys.init).2).1 rfl,
   (C9_failed_start_frame Sys.init).2 rfl⟩

/-- Processing a batch whose entries all decode always completes. -/
theorem process_logs_total (envs : List MintEnv) :
    ∀ (batch : List RawLog) (k : Nat) (logs : List String) (nonce : Option Nat)
      (mints : List String), (∀ l ∈ batch, (RawLog.decoded l).isSome = true) →
      ∃ r, process_logs envs batch k logs nonce mints = some r := by
  intro batch
  induction batch with
  | nil => exact fun k logs nonce mints _ => ⟨(logs, nonce, mints), rfl⟩
  | cons l rest ih =>
    intro k logs nonce mints h
    have hl : l.decoded.isSome = true := h l (by simp)
    have hrest : ∀ x ∈ rest, (RawLog.decoded x).isSome = true :=
      fun x hx => h x (by simp [hx])
    cases hd : l.decoded with
    | none => rw [hd] at hl; cases hl
    | some ev =>
      by_cases hv : ev.value > 1000000
      · obtain ⟨r, hr⟩ := ih (k + 1) (logs ++ [transfer_record ev])
          (mint_new_whale_nft (envs.getD k MintEnv.fallback) ev.fromAddr nonce).nonceAfter
          (mints ++ [ev.fromAddr]) hrest
        refine ⟨r, ?_⟩
        simp only [process_logs, hd]
        rw [if_pos hv]
        exact hr
      · obtain ⟨r, hr⟩ := ih k logs nonce mints hrest
        refine ⟨r, ?_⟩
        simp only [process_logs, hd]
        rw [if_neg hv]
        exact hr

/-- Processing a batch holding an undecodable entry always traps. -/
theorem process_logs_none (envs : List MintEnv) :
    ∀ (batch : List RawLog) (k : Nat) (logs : List String) (nonce : Option Nat)
      (mints : List String) (l : RawLog), l ∈ batch → l.decoded = none →
      process_logs envs batch k logs nonce mints = none := by
  intro batch
  induction batch with
  | nil => intro _ _ _ _ l hl; cases hl
  | cons x rest ih =>
    intro k logs nonce mints l hl hd
    rcases List.mem_cons.1 hl with h | h
    · subst h
      simp [process_logs, hd]
    · cases hx : x.decoded with
      | none => simp [process_logs, hx]
      | some ev =>
        by_cases hv : ev.value > 1000000 <;>
          simp [process_logs, hx, hv, ih _ _ _ _ l h hd]

/-- Processing a fully-decodable batch appends exactly the records of its
transfers with value strictly above the threshold, and issues exactly one mint
per such transfer, targeted at its sender, in batch order. -/
theorem process_logs_records (envs : List MintEnv) :
    ∀ (batch : List RawLog) (evs : List TransferEvent) (k : Nat) (logs : List String)
      (nonce : Option Nat) (mints : List String),
      batch.map RawLog.decoded = evs.map some →
      ∃ nonce2, process_logs envs batch k logs nonce mints =
        some (logs ++ (evs.filter (fun ev => ev.value > 1000000)).map transfer_record,
              nonce2,
              mints ++ (evs.filter (fun ev => ev.value > 1000000)).map TransferEvent.fromAddr) := by
  intro batch
  induction batch with
  | nil =>
    intro evs k logs nonce mints h
    have : evs = [] := by cases evs <;> simp_all
    subst this
    exact ⟨nonce, by simp [process_logs]⟩
  | cons x rest ih =>
    intro evs k logs nonce mints h
    cases evs with
    | nil => simp at h
    | cons ev evs2 =>
      simp only [List.map_cons, List.cons.injEq] at h
      obtain ⟨hx, hrest⟩ := h
      by_cases hv : ev.value > 1000000
      · obtain ⟨nonce2, hr⟩ := ih evs2 (k + 1) (logs ++ [transfer_record ev])
          (mint_new_whale_nft (envs.getD k MintEnv.fallback) ev.fromAddr nonce).nonceAfter
          (mints ++ [ev.fromAddr]) hrest
        refine ⟨nonce2, ?_⟩
        have hfil : (ev :: evs2).filter (fun ev => ev.value > 1000000)
            = ev :: evs2.filter (fun ev => ev.value > 1000000) :=
          List.filter_cons_of_pos (by simpa using hv)
        simp only [process_logs, hx]
        rw [if_pos hv, hfil]
        simpa [List.append_assoc] using hr
      · obtain ⟨nonce2, hr⟩ := ih evs2 k logs nonce mints hrest
        refine ⟨nonce2, ?_⟩
        have hfil : (ev :: evs2).filter (fun ev => ev.value > 1000000)
            = evs2.filter (fun ev => ev.value > 1000000) :=
          List.filter_cons_of_neg (by simpa using hv)
        simp only [process_logs, hx]
        rw [if_neg hv, hfil]
        exact hr

/-- C6: for a fully-decodable batch the appended records and triggered mints are
exactly those of the transfers with value strictly above 1000000 — a transfer of
exactly the threshold value leaves the logs, the nonce cache and the mint list
untouched — and the two-transfer batch of amounts 500000 and 2000000 yields
exactly one record and exactly one mint, for the 2000000 transfer's sender. -/
theorem C6_threshold_filter (envs : List MintEnv) :
    (∀ (batch : List RawLog) (evs : List TransferEvent) (k : Nat) (logs : List String)
      (nonce : Option Nat) (mints : List String),
      batch.map RawLog.decoded = evs.map some →
      ∃ nonce2, process_logs envs batch k logs nonce mints =
        some (logs ++ (evs.filter (fun ev => ev.value > 1000000)).map transfer_record,
              nonce2,
              mints ++ (evs.filter (fun ev => ev.value > 1000000)).map TransferEvent.fromAddr)) ∧
    (∀ ev k logs nonce mints, ev.value = 1000000 →
      process_logs envs [⟨some ev⟩] k logs nonce mints = some (logs, nonce, mints)) ∧
    (∀ a1 b1 a2 b2 nonce,
      process_logs envs [⟨some ⟨a1, b1, 500000⟩⟩, ⟨some ⟨a2, b2, 2000000⟩⟩] 0 [] nonce [] =
        some ([transfer_record ⟨a2, b2, 2000000⟩],
              (mint_new_whale_nft (envs.getD 0 MintEnv.fallback) a2 nonce).nonceAfter,
              [a2])) := by
  refine ⟨fun batch evs k logs nonce mints h => process_logs_records envs batch evs
      k logs nonce mints h,
    fun ev k logs nonce mints h => ?_, fun a1 b1 a2 b2 nonce => ?_⟩
  · simp [process_logs, h]
  · simp [process_logs]

set_option maxRecDepth 8000 in
/-- Witness for C6: the spec's scenario run on concrete addresses — exactly one
record, for the 2000000 transfer, and exactly one mint, to its sender; and the
threshold-equal transfer produces nothing. -/
theorem C6_threshold_filter_witness :
    process_logs [] [⟨some ⟨"0xaaaaaaaaaaaaaaaaaaaaaaaaaaaaaaaaaaaaa111",
                            "0xbbbbbbbbbbbbbbbbbbbbbbbbbbbbbbbbbbbbb222", 500000⟩⟩,
                     ⟨some ⟨"0xccccccccccccccccccccccccccccccccccccc333",
                            "0xddddddddddddddddddddddddddddddddddddd444", 2000000⟩⟩]
        0 [] none [] =
      some (["0xccc...333 -> 0xddd...444, value: 2000000"], none,
            ["0xccccccccccccccccccccccccccccccccccccc333"]) ∧
    process_logs [] [⟨some ⟨"0xaaaaaaaaaaaaaaaaaaaaaaaaaaaaaaaaaaaaa111",
                            "0xbbbbbbbbbbbbbbbbbbbbbbbbbbbbbbbbbbbbb222", 1000000⟩⟩]
        0 [] none [] = some ([], none, []) := by
  constructor
  · have h := (C6_threshold_filter []).2.2
      "0xaaaaaaaaaaaaaaaaaaaaaaaaaaaaaaaaaaaaa111"
      "0xbbbbbbbbbbbbbbbbbbbbbbbbbbbbbbbbbbbbb222"
      "0xccccccccccccccccccccccccccccccccccccc333"
      "0xddddddddddddddddddddddddddddddddddddd444" none
    rw [h]
    decide
  · exact (C6_threshold_filter []).2.1
      ⟨"0xaaaaaaaaaaaaaaaaaaaaaaaaaaaaaaaaaaaaa111",
       "0xbbbbbbbbbbbbbbbbbbbbbbbbbbbbbbbbbbbbb222", 1000000⟩ 0 [] none [] rfl

set_option maxRecDepth 8000 in
/-- Counterexample to C8 as stated: in a batch whose first entry fails to
decode, the later 2000000-value entry is not decoded, filtered or recorded — the
whole firing traps — whereas the same batch without the failing entry records
that entry; so the failing entry is not treated as if absent. -/
theorem C8_counterexample :
    process_logs [] [RawLog.mk none,
        RawLog.mk (some (TransferEvent.mk "0xccccccccccccccccccccccccccccccccccccc333"
          "0xddddddddddddddddddddddddddddddddddddd444" 2000000))] 0 [] none [] = none ∧
    process_logs [] [RawLog.mk (some (TransferEvent.mk
          "0xccccccccccccccccccccccccccccccccccccc333"
          "0xddddddddddddddddddddddddddddddddddddd444" 2000000))] 0 [] none [] =
      some (["0xccc...333 -> 0xddd...444, value: 2000000"], none,
            ["0xccccccccccccccccccccccccccccccccccccc333"]) := by
  constructor
  · rfl
  · decide

/-- Completed batches agree between the two renderings of the loop. -/
theorem process_logs_run_of_some (envs : List MintEnv) :
    ∀ (batch : List RawLog) (k : Nat) (logs : List String) (nonce : Option Nat)
      (mints : List String) (r : List String × Option Nat × List String),
      process_logs envs batch k logs nonce mints = some r →
      process_logs_run envs batch k logs nonce mints = (r, true) := by
  intro batch
  induction batch with
  | nil =>
    intro k logs nonce mints r h
    simp only [process_logs, Option.some.injEq] at h
    simp [process_logs_run, h]
  | cons x rest ih =>
    intro k logs nonce mints r h
    cases hx : x.decoded with
    | none => simp [process_logs, hx] at h
    | some ev =>
      by_cases hv : ev.value > 1000000
      · simp only [process_logs, hx] at h
        rw [if_pos hv] at h
        simp only [process_logs_run, hx]
        rw [if_pos hv]
        exact ih _ _ _ _ r h
      · simp only [process_logs, hx] at h
        rw [if_neg hv] at h
        simp only [process_logs_run, hx]
        rw [if_neg hv]
        exact ih _ _ _ _ r h

/-- The loop stops at the first undecodable entry: its accumulated state is
exactly that of the decodable prefix, flagged trapped, and the entries past the
failure contribute nothing. -/
theorem process_logs_run_append_bad (envs : List MintEnv) (bad : RawLog)
    (post : List RawLog) (hbad : bad.decoded = none) :
    ∀ (pre : List RawLog) (k : Nat) (logs : List String) (nonce : Option Nat)
      (mints : List String), (∀ l ∈ pre, (RawLog.decoded l).isSome = true) →
      process_logs_run envs (pre ++ bad :: post) k logs nonce mints =
        ((process_logs_run envs pre k logs nonce mints).1, false) := by
  intro pre
  induction pre with
  | nil =>
    intro k logs nonce mints _
    simp [process_logs_run, hbad]
  | cons x rest ih =>
    intro k logs nonce mints h
    have hx2 : x.decoded.isSome = true := h x (by simp)
    have hrest : ∀ l ∈ rest, (RawLog.decoded l).isSome = true :=
      fun l hl => h l (by simp [hl])
    cases hx : x.decoded with
    | none => rw [hx] at hx2; cases hx2
    | some ev =>
      by_cases hv : ev.value > 1000000
      · simp only [List.cons_append, process_logs_run, hx]
        rw [if_pos hv, if_pos hv]
        exact ih _ _ _ _ hrest
      · simp only [List.cons_append, process_logs_run, hx]
        rw [if_neg hv, if_neg hv]
        exact ih _ _ _ _ hrest

/-- C8 amended: a decode failure of one entry aborts the rest of the batch — the
unwrap on the decode result panics, so the entries after the failing one are
never decoded, filtered or recorded and the loop yields no completed result —
while the effects committed before the failure survive the trap: the qualifying
entries of the decodable prefix keep their appended records, nonce updates and
externally issued mints (committed at each mint's await), and the firing's
poll-counter increment and auto-termination check are never reached, leaving
poll count, stored timer, fire budget and cancellation list as they were. -/
theorem C8_decode_abort (envs : List MintEnv) (pre post : List RawLog) (bad : RawLog)
    (evs : List TransferEvent) (sys : Sys) (k : Nat) (logs : List String)
    (nonce : Option Nat) (mints : List String)
    (hpre : pre.map RawLog.decoded = evs.map some) (hbad : bad.decoded = none) :
    process_logs envs (pre ++ bad :: post) k logs nonce mints = none ∧
    (∃ nonce2, process_logs_run envs (pre ++ bad :: post) k logs nonce mints =
      ((logs ++ (evs.filter (fun ev => ev.value > 1000000)).map transfer_record,
        nonce2,
        mints ++ (evs.filter (fun ev => ev.value > 1000000)).map TransferEvent.fromAddr),
       false)) ∧
    (sys.schedTimer.isSome = true → sys.schedFires < POLL_LIMIT →
      (fire_step envs (pre ++ bad :: post) sys).state.logs =
        sys.state.logs ++ (evs.filter (fun ev => ev.value > 1000000)).map transfer_record ∧
      (fire_step envs (pre ++ bad :: post) sys).mints =
        sys.mints ++ (evs.filter (fun ev => ev.value > 1000000)).map TransferEvent.fromAddr ∧
      (fire_step envs (pre ++ bad :: post) sys).nonce =
        (process_logs_run envs pre 0 sys.state.logs sys.nonce []).1.2.1 ∧
      (fire_step envs (pre ++ bad :: post) sys).state.poll_count = sys.state.poll_count ∧
      (fire_step envs (pre ++ bad :: post) sys).state.timer_id = sys.state.timer_id ∧
      (fire_step envs (pre ++ bad :: post) sys).schedFires = sys.schedFires ∧
      (fire_step envs (pre ++ bad :: post) sys).schedTimer = sys.schedTimer ∧
      (fire_step envs (pre ++ bad :: post) sys).cancelled = sys.cancelled) := by
  have hdecpre : ∀ l ∈ pre, (RawLog.decoded l).isSome = true := by
    intro l hl
    have hmem : l.decoded ∈ evs.map some := by
      rw [← hpre]
      exact List.mem_map_of_mem RawLog.decoded hl
    obtain ⟨ev, -, hev⟩ := List.mem_map.1 hmem
    rw [← hev]
    rfl
  refine ⟨process_logs_none envs (pre ++ bad :: post) k logs nonce mints bad
    (by simp) hbad, ?_, fun hT hF => ?_⟩
  · obtain ⟨nonce2, hsome⟩ := process_logs_records envs pre evs k logs nonce mints hpre
    have hrunpre := process_logs_run_of_some envs pre k logs nonce mints _ hsome
    rw [process_logs_run_append_bad envs bad post hbad pre k logs nonce mints hdecpre,
      hrunpre]
    exact ⟨nonce2, rfl⟩
  · obtain ⟨nonce2, hsome⟩ :=
      process_logs_records envs pre evs 0 sys.state.logs sys.nonce [] hpre
    have hrunpre := process_logs_run_of_some envs pre 0 sys.state.logs sys.nonce [] _ hsome
    have hrun :=
      process_logs_run_append_bad envs bad post hbad pre 0 sys.state.logs sys.nonce [] hdecpre
    rw [hrunpre] at hrun
    refine ⟨?_, ?_, ?_, ?_, ?_, ?_, ?_, ?_⟩ <;>
      simp [fire_step, hT, hF, hrun, hrunpre]

set_option maxRecDepth 8000 in
/-- Witness for C8 at a concrete input: a batch with a qualifying 2000000
transfer, then an undecodable entry, then another qualifying transfer, fired on
a freshly started watch — the loop yields no completed result, the prefix's
record and mint are committed, the entry after the failure is not recorded, and
poll count, stored timer and fire budget are untouched. -/
theorem C8_decode_abort_witness :
    process_logs []
      [RawLog.mk (some (TransferEvent.mk "0xccccccccccccccccccccccccccccccccccccc333"
          "0xddddddddddddddddddddddddddddddddddddd444" 2000000)),
       RawLog.mk none,
       RawLog.mk (some (TransferEvent.mk "0xeeeeeeeeeeeeeeeeeeeeeeeeeeeeeeeeeeeee555"
          "0xfffffffffffffffffffffffffffffffffffff666" 3000000))] 0 [] none [] = none ∧
    (∃ nonce2, process_logs_run []
      [RawLog.mk (some (TransferEvent.mk "0xccccccccccccccccccccccccccccccccccccc333"
          "0xddddddddddddddddddddddddddddddddddddd444" 2000000)),
       RawLog.mk none,
       RawLog.mk (some (TransferEvent.mk "0xeeeeeeeeeeeeeeeeeeeeeeeeeeeeeeeeeeeee555"
          "0xfffffffffffffffffffffffffffffffffffff666" 3000000))] 0 [] none [] =
      ((["0xccc...333 -> 0xddd...444, value: 2000000"], nonce2,
        ["0xccccccccccccccccccccccccccccccccccccc333"]), false)) ∧
    (fire_step []
      [RawLog.mk (some (TransferEvent.mk "0xccccccccccccccccccccccccccccccccccccc333"
          "0xddddddddddddddddddddddddddddddddddddd444" 2000000)),
       RawLog.mk none,
       RawLog.mk (some (TransferEvent.mk "0xeeeeeeeeeeeeeeeeeeeeeeeeeeeeeeeeeeeee555"
          "0xfffffffffffffffffffffffffffffffffffff666" 3000000))]
      (watch_usdc_transfer_start Sys.init).2).state.logs =
      ["0xccc...333 -> 0xddd...444, value: 2000000"] ∧
    (fire_step []
      [RawLog.mk (some (TransferEvent.mk "0xccccccccccccccccccccccccccccccccccccc333"
          "0xddddddddddddddddddddddddddddddddddddd444" 2000000)),
       RawLog.mk none,
       RawLog.mk (some (TransferEvent.mk "0xeeeeeeeeeeeeeeeeeeeeeeeeeeeeeeeeeeeee555"
          "0xfffffffffffffffffffffffffffffffffffff666" 3000000))]
      (watch_usdc_transfer_start Sys.init).2).mints =
      ["0xccccccccccccccccccccccccccccccccccccc333"] ∧
    (fire_step []
      [RawLog.mk (some (TransferEvent.mk "0xccccccccccccccccccccccccccccccccccccc333"
          "0xddddddddddddddddddddddddddddddddddddd444" 2000000)),
       RawLog.mk none,
       RawLog.mk (some (TransferEvent.mk "0xeeeeeeeeeeeeeeeeeeeeeeeeeeeeeeeeeeeee555"
          "0xfffffffffffffffffffffffffffffffffffff666" 3000000))]
      (watch_usdc_transfer_start Sys.init).2).state.poll_count = 0 ∧
    (fire_step []
      [RawLog.mk (some (TransferEvent.mk "0xccccccccccccccccccccccccccccccccccccc333"
          "0xddddddddddddddddddddddddddddddddddddd444" 2000000)),
       RawLog.mk none,
       RawLog.mk (some (TransferEvent.mk "0xeeeeeeeeeeeeeeeeeeeeeeeeeeeeeeeeeeeee555"
          "0xfffffffffffffffffffffffffffffffffffff666" 3000000))]
      (watch_usdc_transfer_start Sys.init).2).state.timer_id = some 0 ∧
    (fire_step []
      [RawLog.mk (some (TransferEvent.mk "0xccccccccccccccccccccccccccccccccccccc333"
          "0xddddddddddddddddddddddddddddddddddddd444" 2000000)),
       RawLog.mk none,
       RawLog.mk (some (TransferEvent.mk "0xeeeeeeeeeeeeeeeeeeeeeeeeeeeeeeeeeeeee555"
          "0xfffffffffffffffffffffffffffffffffffff666" 3000000))]
      (watch_usdc_transfer_start Sys.init).2).schedFires = 0 := by
  have h := C8_decode_abort []
    [RawLog.mk (some (TransferEvent.mk "0xccccccccccccccccccccccccccccccccccccc333"
        "0xddddddddddddddddddddddddddddddddddddd444" 2000000))]
    [RawLog.mk (some (TransferEvent.mk "0xeeeeeeeeeeeeeeeeeeeeeeeeeeeeeeeeeeeee555"
        "0xfffffffffffffffffffffffffffffffffffff666" 3000000))]
    (RawLog.mk none)
    [TransferEvent.mk "0xccccccccccccccccccccccccccccccccccccc333"
        "0xddddddddddddddddddddddddddddddddddddd444" 2000000]
    (watch_usdc_transfer_start Sys.init).2 0 [] none [] rfl rfl
  simp only [List.cons_append, List.nil_append] at h
  have hc := h.2.2 (by decide) (by decide)
  refine ⟨h.1, ?_, ?_, ?_, ?_, ?_, ?_⟩
  · obtain ⟨n2, hr⟩ := h.2.1
    refine ⟨n2, ?_⟩
    rw [hr]
    rfl
  · rw [hc.1]
    decide
  · rw [hc.2.1]
    decide
  · rw [hc.2.2.2.1]
    decide
  · rw [hc.2.2.2.2.1]
    decide
  · rw [hc.2.2.2.2.2.1]
    decide

/-- Modelled from the spec: the short address form described as the address's
first 3 and last 3 hex characters joined by an ellipsis — the hex characters
being those after the 0x prefix. -/
def short_address_spec (a : String) : String :=
  let hex := a.drop 2
  "0x" ++ hex.take 3 ++ "..." ++ hex.drop (hex.length - 3)

/-- Modelled from the spec: the display record described for a qualifying
transfer, short sender, an arrow, short recipient, and the amount. -/
def record_spec (ev : TransferEvent) : String :=
  short_address_spec ev.fromAddr ++ " -> " ++ short_address_spec ev.toAddr ++
    ", value: " ++ toString ev.value

/-- Dropped strings shorten by the dropped count. -/
theorem string_length_drop (s : String) (n : Nat) : (s.drop n).length = s.length - n := by
  show (s.drop n).data.length = s.data.length - n
  simp [String.data_drop]

/-- On a standard 42-character address rendering, the code's last-3-byte slice
is the last 3 characters of the hex part. -/
theorem drop_last3 (a : String) (h : a.length = 42) :
    a.drop (a.length - 3) = (a.drop 2).drop ((a.drop 2).length - 3) := by
  apply String.ext
  rw [string_length_drop]
  simp only [String.data_drop, List.drop_drop]
  congr 1
  omega

/-- On standard address renderings the code's short form is the spec's. -/
theorem short_address_eq_spec (a : String) (h : a.length = 42) :
    short_address a = short_address_spec a := by
  unfold short_address short_address_spec
  rw [drop_last3 a h]

/-- Folding the Rust escape over characters none of which needs an escape is the
identity. -/
theorem escape_foldr_id (l : List Char) (h : ∀ c ∈ l, rust_escape_char c = [c]) :
    l.foldr (fun c acc => rust_escape_char c ++ acc) [] = l := by
  induction l with
  | nil => rfl
  | cons c cs ih =>
    simp only [List.foldr_cons]
    rw [h c (by simp), ih (fun x hx => h x (by simp [hx]))]
    rfl

/-- Rust Debug formatting of a string without escapable characters just wraps it
in double quotes. -/
theorem rust_string_debug_plain (s : String) (h : ∀ c ∈ s.data, rust_escape_char c = [c]) :
    rust_string_debug s = "\"" ++ s ++ "\"" := by
  unfold rust_string_debug
  rw [escape_foldr_id s.data h]

/-- System storing the given records in an otherwise idle state, used in
concrete statements about the log query. -/
def sysWithLogs (l : List String) : Sys :=
  { Sys.init with state := { timer_id := none, logs := l, poll_count := 1 } }

set_option maxRecDepth 8000 in
/-- Counterexample to C7 as stated: get_logs does not return the stored records
themselves — on a system holding one stored record of a qualifying transfer,
the returned list differs from the stored one (each record comes back
Debug-quoted). -/
theorem C7_counterexample :
    watch_usdc_transfer_get
      (sysWithLogs [transfer_record (TransferEvent.mk
        "0xccccccccccccccccccccccccccccccccccccc333"
        "0xddddddddddddddddddddddddddddddddddddd444" 2000000)]) ≠
      [transfer_record (TransferEvent.mk
        "0xccccccccccccccccccccccccccccccccccccc333"
        "0xddddddddddddddddddddddddddddddddddddd444" 2000000)] := by
  decide

/-- C7 amended: each qualifying transfer's record is exactly the spec's display
string (short sender, arrow, short recipient, amount) when the addresses are
standard 42-character renderings, and get_logs returns the stored records in
order, each passed through Rust Debug string formatting — for records free of
escapable characters that is the record wrapped in double quotes, not the
record itself. -/
theorem C7_record_format (sys : Sys) (ev : TransferEvent)
    (hf : ev.fromAddr.length = 42) (ht : ev.toAddr.length = 42) :
    transfer_record ev = record_spec ev ∧
    watch_usdc_transfer_get sys = sys.state.logs.map rust_string_debug ∧
    ((∀ r ∈ sys.state.logs, ∀ c ∈ r.data, rust_escape_char c = [c]) →
      watch_usdc_transfer_get sys = sys.state.logs.map (fun r => "\"" ++ r ++ "\"")) := by
  refine ⟨?_, rfl, fun h => ?_⟩
  · unfold transfer_record record_spec
    rw [short_address_eq_spec ev.fromAddr hf, short_address_eq_spec ev.toAddr ht]
  · unfold watch_usdc_transfer_get
    exact List.map_congr_left (fun r hr => rust_string_debug_plain r (h r hr))

set_option maxRecDepth 8000 in
/-- Witness for C7 at a concrete input: the record for a concrete qualifying
transfer matches the spec rendering, and get_logs on a system storing it
returns the quoted form. -/
theorem C7_record_format_witness :
    transfer_record (TransferEvent.mk "0xccccccccccccccccccccccccccccccccccccc333"
        "0xddddddddddddddddddddddddddddddddddddd444" 2000000) =
      record_spec (TransferEvent.mk "0xccccccccccccccccccccccccccccccccccccc333"
        "0xddddddddddddddddddddddddddddddddddddd444" 2000000) ∧
    watch_usdc_transfer_get
      (sysWithLogs ["0xccc...333 -> 0xddd...444, value: 2000000"]) =
      ["\"0xccc...333 -> 0xddd...444, value: 2000000\""] := by
  have h := C7_record_format
    (sysWithLogs ["0xccc...333 -> 0xddd...444, value: 2000000"])
    (TransferEvent.mk "0xccccccccccccccccccccccccccccccccccccc333"
      "0xddddddddddddddddddddddddddddddddddddd444" 2000000) (by decide) (by decide)
  refine ⟨h.1, ?_⟩
  rw [h.2.2 (by decide)]
  decide

/-- Scheduler correspondence: a stored timer id is the live scheduler timer, and
while the scheduler timer is alive the poller has fired exactly the poll count. -/
def SchedInv (sys : Sys) : Prop :=
  (∀ t, sys.state.timer_id = some t → sys.schedTimer = some t) ∧
  (sys.schedTimer.isSome = true → sys.schedFires = sys.state.poll_count)

/-- The initial system satisfies the scheduler correspondence. -/
theorem schedInv_init : SchedInv Sys.init :=
  ⟨fun _ ht => (nomatch ht), fun _ => rfl⟩

/-- A completed firing — scheduler alive, fire budget left, every entry
decodable — performs exactly the callback's mutations: new logs, nonce and mint
targets, the incremented poll count, the auto-termination check on the stored
timer, and one more delivered fire. -/
theorem fire_step_complete (envs : List MintEnv) (incoming : List RawLog) (sys : Sys)
    (hTimer : sys.schedTimer.isSome = true) (hFires : sys.schedFires < POLL_LIMIT)
    (hdec : ∀ l ∈ incoming, (RawLog.decoded l).isSome = true) :
    ∃ logs2 nonce2 mints2,
      fire_step envs incoming sys =
        { sys with
            state := { timer_id := if sys.state.poll_count + 1 ≥ POLL_LIMIT then none else sys.state.timer_id, logs := logs2, poll_count := sys.state.poll_count + 1 }
            nonce := nonce2
            schedFires := sys.schedFires + 1
            mints := sys.mints ++ mints2 } := by
  obtain ⟨⟨logs2, nonce2, mints2⟩, hp⟩ :=
    process_logs_total envs incoming 0 sys.state.logs sys.nonce [] hdec
  have hrun := process_logs_run_of_some envs incoming 0 sys.state.logs sys.nonce [] _ hp
  exact ⟨logs2, nonce2, mints2, by simp [fire_step, hrun, hTimer, hFires]⟩

/-- Every stimulus preserves the scheduler correspondence. -/
theorem schedInv_step (sys : Sys) (c : Cmd) (h : SchedInv sys) : SchedInv (step sys c) := by
  obtain ⟨h1, h2⟩ := h
  cases c with
  | start =>
    by_cases hs : sys.state.timer_id.isSome = true
    · simp only [step, watch_usdc_transfer_start, hs, if_true]
      exact ⟨h1, h2⟩
    · simp only [step, watch_usdc_transfer_start, hs, if_false, Bool.false_eq_true]
      exact ⟨fun t ht => ht, fun _ => rfl⟩
  | stop =>
    cases ht : sys.state.timer_id with
    | none =>
      simp only [step, watch_usdc_transfer_stop, ht]
      exact ⟨h1, h2⟩
    | some t =>
      have hst : sys.schedTimer = some t := h1 t ht
      simp only [step, watch_usdc_transfer_stop, ht, hst, if_pos rfl]
      refine ⟨fun t2 ht2 => ?_, fun habs => ?_⟩
      · cases ht2
      · cases habs
  | fire envs incoming =>
    by_cases hcond : sys.schedTimer.isSome = true ∧ sys.schedFires < POLL_LIMIT
    · rcases hrun : process_logs_run envs incoming 0 sys.state.logs sys.nonce []
        with ⟨⟨logs2, nonce2, mints2⟩, flag⟩
      cases flag with
      | false =>
        simp only [step, fire_step, if_pos hcond, hrun]
        exact ⟨fun t ht => h1 t ht, fun hto => h2 hto⟩
      | true =>
        simp only [step, fire_step, if_pos hcond, hrun]
        refine ⟨fun t ht => ?_, fun hto => ?_⟩
        · by_cases hlim : sys.state.poll_count + 1 ≥ POLL_LIMIT
          · simp only [if_pos hlim] at ht
            cases ht
          · simp only [if_neg hlim] at ht
            exact h1 t ht
        · have hfp := h2 hcond.1
          show sys.schedFires + 1 = sys.state.poll_count + 1
          omega
    · simp only [step, fire_step, if_neg hcond]
      exact ⟨h1, h2⟩

/-- The scheduler correspondence holds along every run. -/
theorem schedInv_run : ∀ (cs : List Cmd) (sys : Sys), SchedInv sys → SchedInv (run sys cs)
  | [], _, h => h
  | c :: cs, sys, h => schedInv_run cs (step sys c) (schedInv_step sys c h)

/-- C2: the poll count is 0 right after a successful start; a completed firing —
whatever its mint outcomes — increments the poll count by exactly 1; a completed
firing reaching the limit drops the stored timer id, making the watch idle with
no stop call; and from any reachable system whose poll count has reached the
limit, a scheduler tick fires nothing and changes nothing. -/
theorem C2_poll_counting (sys : Sys) (envs : List MintEnv) (incoming : List RawLog) :
    (∀ m, (watch_usdc_transfer_start sys).1 = Except.ok m →
      watch_usdc_transfer_poll_count (watch_usdc_transfer_start sys).2 = 0) ∧
    (sys.schedTimer.isSome = true → sys.schedFires < POLL_LIMIT →
      (∀ l ∈ incoming, (RawLog.decoded l).isSome = true) →
      watch_usdc_transfer_poll_count (fire_step envs incoming sys)
        = watch_usdc_transfer_poll_count sys + 1) ∧
    (sys.schedTimer.isSome = true → sys.schedFires < POLL_LIMIT →
      (∀ l ∈ incoming, (RawLog.decoded l).isSome = true) →
      sys.state.poll_count + 1 ≥ POLL_LIMIT →
      (fire_step envs incoming sys).state.timer_id = none ∧
      watch_usdc_transfer_is_polling (fire_step envs incoming sys) = false) ∧
    (∀ cs, sys = run Sys.init cs → POLL_LIMIT ≤ sys.state.poll_count →
      fire_step envs incoming sys = sys) := by
  refine ⟨fun m hm => ?_, fun hTimer hFires hdec => ?_, fun hTimer hFires hdec hlim => ?_,
    fun cs hcs hpc => ?_⟩
  · by_cases hs : sys.state.timer_id.isSome = true
    · simp [watch_usdc_transfer_start, hs] at hm
    · simp [watch_usdc_transfer_start, watch_usdc_transfer_poll_count, hs]
  · obtain ⟨logs2, nonce2, mints2, hfs⟩ := fire_step_complete envs incoming sys hTimer hFires hdec
    rw [hfs]
    rfl
  · obtain ⟨logs2, nonce2, mints2, hfs⟩ := fire_step_complete envs incoming sys hTimer hFires hdec
    rw [hfs]
    constructor
    · simp [hlim]
    · simp [watch_usdc_transfer_is_polling, hlim]
  · have hinv := schedInv_run cs Sys.init schedInv_init
    rw [← hcs] at hinv
    obtain ⟨-, h2⟩ := hinv
    unfold fire_step
    rw [if_neg]
    rintro ⟨hTimer, hFires⟩
    rw [h2 hTimer] at hFires
    omega

/-- Witness for C2 along a concrete run: count 0 after start, 1 after an empty
firing, auto-termination on the third firing, and a fourth tick changing
nothing. -/
theorem C2_poll_counting_witness :
    watch_usdc_transfer_poll_count (watch_usdc_transfer_start Sys.init).2 = 0 ∧
    watch_usdc_transfer_poll_count
      (fire_step [] [] (watch_usdc_transfer_start Sys.init).2) = 1 ∧
    (fire_step [] [] (fire_step [] [] (fire_step [] []
      (watch_usdc_transfer_start Sys.init).2))).state.timer_id = none ∧
    fire_step [] [] (run Sys.init [Cmd.start, Cmd.fire [] [], Cmd.fire [] [], Cmd.fire [] []])
      = run Sys.init [Cmd.start, Cmd.fire [] [], Cmd.fire [] [], Cmd.fire [] []] := by
  refine ⟨(C2_poll_counting Sys.init [] []).1 "Watching for logs, polling 3 times." rfl,
    (C2_poll_counting (watch_usdc_transfer_start Sys.init).2 [] []).2.1
      (by decide) (by decide) (by simp), ?_, ?_⟩
  · exact ((C2_poll_counting (fire_step [] [] (fire_step [] []
      (watch_usdc_transfer_start Sys.init).2)) [] []).2.2.1
      (by decide) (by decide) (by simp) (by decide)).1
  · exact (C2_poll_counting
      (run Sys.init [Cmd.start, Cmd.fire [] [], Cmd.fire [] [], Cmd.fire [] []]) [] []).2.2.2
      [Cmd.start, Cmd.fire [] [], Cmd.fire [] [], Cmd.fire [] []] rfl (by decide)

/-- C10: a scheduler tick never issues a clear_timer call — auto-termination
only drops the stored timer id while the scheduler timer stays untouched — and
the only operation issuing clear_timer is a successful stop, on the stored
timer id. -/
theorem C10_clear_timer_only_stop (sys : Sys) (envs : List MintEnv) (incoming : List RawLog) :
    (fire_step envs incoming sys).cancelled = sys.cancelled ∧
    (watch_usdc_transfer_start sys).2.cancelled = sys.cancelled ∧
    (∀ t, sys.state.timer_id = some t →
      (watch_usdc_transfer_stop sys).2.cancelled = sys.cancelled ++ [t]) ∧
    (sys.state.timer_id = none →
      (watch_usdc_transfer_stop sys).2.cancelled = sys.cancelled) ∧
    (sys.schedTimer.isSome = true → sys.schedFires < POLL_LIMIT →
      (∀ l ∈ incoming, (RawLog.decoded l).isSome = true) →
      POLL_LIMIT ≤ sys.state.poll_count + 1 →
      (fire_step envs incoming sys).state.timer_id = none ∧
      (fire_step envs incoming sys).schedTimer = sys.schedTimer) := by
  refine ⟨?_, ?_, fun t ht => ?_, fun ht => ?_, fun hTimer hFires hdec hlim => ?_⟩
  · unfold fire_step
    split
    · rcases process_logs_run envs incoming 0 sys.state.logs sys.nonce []
        with ⟨⟨logs2, nonce2, mints2⟩, flag⟩
      cases flag <;> rfl
    · rfl
  · by_cases hs : sys.state.timer_id.isSome = true <;>
      simp [watch_usdc_transfer_start, hs]
  · simp [watch_usdc_transfer_stop, ht]
  · simp [watch_usdc_transfer_stop, ht]
  · obtain ⟨logs2, nonce2, mints2, hfs⟩ := fire_step_complete envs incoming sys hTimer hFires hdec
    rw [hfs]
    exact ⟨by simp [hlim], rfl⟩

/-- Witness for C10 along a concrete run: a tick and a start leave the
cancellation list empty, a successful stop cancels exactly the stored timer, a
stop on the idle system cancels nothing, and the auto-terminating third firing
drops the stored timer while the scheduler timer survives. -/
theorem C10_clear_timer_only_stop_witness :
    (fire_step [] [] (watch_usdc_transfer_start Sys.init).2).cancelled = [] ∧
    (watch_usdc_transfer_start Sys.init).2.cancelled = [] ∧
    (watch_usdc_transfer_stop (watch_usdc_transfer_start Sys.init).2).2.cancelled = [0] ∧
    (watch_usdc_transfer_stop Sys.init).2.cancelled = [] ∧
    ((fire_step [] [] (fire_step [] [] (fire_step [] []
        (watch_usdc_transfer_start Sys.init).2))).state.timer_id = none ∧
      (fire_step [] [] (fire_step [] [] (fire_step [] []
        (watch_usdc_transfer_start Sys.init).2))).schedTimer =
      (fire_step [] [] (fire_step [] []
        (watch_usdc_transfer_start Sys.init).2)).schedTimer) :=
  ⟨(C10_clear_timer_only_stop (watch_usdc_transfer_start Sys.init).2 [] []).1,
   (C10_clear_timer_only_stop Sys.init [] []).2.1,
   (C10_clear_timer_only_stop (watch_usdc_transfer_start Sys.init).2 [] []).2.2.1 0 rfl,
   (C10_clear_timer_only_stop Sys.init [] []).2.2.2.1 rfl,
   (C10_clear_timer_only_stop (fire_step [] [] (fire_step [] []
       (watch_usdc_transfer_start Sys.init).2)) [] []).2.2.2.2
     (by decide) (by decide) (by simp) (by decide)⟩

end WhaleTransfer
